import Mathlib

/-!
Verification of the scenario-sequencing engine in `src/molecule/command/base.py`
and the prepare action in `src/molecule/command/prepare.py`.

The stateful Python code is embedded as explicit state passing: a scenario
carries its mutable local result buffer, and every externally visible side
effect (action dispatch, prune, state-directory removal, ephemeral-directory
removal, prerun environment preparation) is recorded as an event in a trace.
The outcome of each dispatched action (success, or raising
ScenarioFailureError) is a parameter `fails`, since the actual action bodies
live behind the dynamic dispatch of `execute_subcommand` and are external to
the coordination logic under study.  Result recording is spec-modelled: the
spec states that dispatching an action appends an outcome entry to the
scenario local result stream, so a successful dispatch of action `a` appends
`a` to the scenario buffer (the entries are opaque to the coordinator).
-/

namespace Molecule

abbrev SName := String
abbrev Action := String

/-- A per-scenario result record, as built at base.py:228 and base.py:279:
a scenario name together with the scenario local result buffer. -/
structure ResultRecord where
  name : SName
  results : List Action
  deriving Repr, DecidableEq

/-- The parts of a Scenario and its Config that the coordination logic in
base.py reads: `scenario.name`, `scenario.sequence`,
`scenario.config.shared_data`, `scenario.config.is_parallel`,
`scenario.config.config["prerun"]`, and the mutable buffer
`scenario.results`. -/
structure Scenario where
  name : SName
  sequence : List Action
  sharedData : Bool
  isParallel : Bool
  prerun : Bool
  results : List Action
  deriving Repr, DecidableEq

/-- Observable side effects, in program order. -/
inductive Ev where
  | dispatch (scenario : SName) (action : Action)
  | prerunEnv (scenario : SName)
  | prune (scenario : SName)
  | removeStateDir (scenario : SName)
  | rmtreeEphemeral (scenario : SName)
  deriving Repr, DecidableEq

/-- The command_args fields read by the coordinator: `subcommand`
(base.py:222), `destroy` (base.py:232, base.py:330) and `report`
(base.py:159). -/
structure CommandArgs where
  subcommand : String
  destroy : Option String
  report : Bool
  deriving Repr, DecidableEq

/-- Whether dispatching an action against a scenario raises
ScenarioFailureError; abstracts the action bodies external to base.py. -/
abbrev FailOracle := SName → Action → Bool

structure SubResult where
  scenario : Scenario
  trace : List Ev
  ok : Bool
  deriving Repr, DecidableEq

/-- base.py:287-310 `execute_subcommand`: dispatch one action against a
scenario.  On success the action outcome is appended to the scenario local
result buffer (spec-modelled recording, see module header); on failure the
ScenarioFailureError propagates (`ok = false`). -/
def execute_subcommand (fails : FailOracle) (s : Scenario) (a : Action) : SubResult :=
  if fails s.name a then ⟨s, [.dispatch s.name a], false⟩
  else ⟨{ s with results := s.results ++ [a] }, [.dispatch s.name a], true⟩

/-- Outcome of `execute_subcommand_default`: the call either raises
(propagating a ScenarioFailureError from the dispatch) or returns an
optional result record. -/
inductive DefaultRes where
  | raised
  | ret (r : Option ResultRecord)
  deriving Repr, DecidableEq

structure DefResult where
  dc : Option Scenario
  trace : List Ev
  res : DefaultRes
  deriving Repr, DecidableEq

/-- base.py:259-284 `execute_subcommand_default`: run a subcommand from the
default scenario when one exists and shared data is enabled.  Returns
`none` when there is nothing to do; otherwise dispatches, snapshots the
default scenario result buffer into a record, and clears the buffer. -/
def execute_subcommand_default (fails : FailOracle) (dc : Option Scenario) (sub : Action) :
    DefResult :=
  match dc with
  | none => ⟨none, [], .ret none⟩
  | some d =>
    if d.sharedData = false then ⟨some d, [], .ret none⟩
    else if d.sequence.contains sub then
      let r := execute_subcommand fails d sub
      if r.ok then
        ⟨some { r.scenario with results := [] }, r.trace,
          .ret (some ⟨r.scenario.name, r.scenario.results⟩)⟩
      else ⟨some r.scenario, r.trace, .raised⟩
    else ⟨some d, [], .ret none⟩

/-- The action loop of base.py:320-325: dispatch each action of the
sequence in order, skipping create and destroy when shared data is active,
stopping at the first failure. -/
def runActions (fails : FailOracle) (shared : Bool) (s : Scenario) :
    List Action → SubResult
  | [] => ⟨s, [], true⟩
  | a :: rest =>
    if shared && (a == "create" || a == "destroy") then
      runActions fails shared s rest
    else
      let r := execute_subcommand fails s a
      if r.ok then
        let r2 := runActions fails shared r.scenario rest
        ⟨r2.scenario, r.trace ++ r2.trace, r2.ok⟩
      else ⟨r.scenario, r.trace, false⟩

/-- base.py:313-335 `execute_scenario`: run the full sequence, then, when
shared data is not active, "destroy" is in the sequence and the command
destroy argument is not "never", prune the ephemeral state (plus the
isolated state directory for parallel scenarios). -/
def execute_scenario (fails : FailOracle) (destroyArg : Option String) (s : Scenario) :
    SubResult :=
  let r := runActions fails s.sharedData s s.sequence
  if r.ok then
    if !s.sharedData && s.sequence.contains "destroy" && !(destroyArg == some "never") then
      ⟨r.scenario,
        r.trace ++ [.prune s.name] ++ (if s.isParallel then [.removeStateDir s.name] else []),
        true⟩
    else r
  else r

inductive RunOutcome where
  | completed
  | reset
  | failed
  deriving Repr, DecidableEq

structure RunResult where
  dc : Option Scenario
  trace : List Ev
  results : List ResultRecord
  outcome : RunOutcome
  deriving Repr, DecidableEq

/-- The prune-on-failure effects of base.py:248-250. -/
def pruneEvs (s : Scenario) : List Ev :=
  [.prune s.name] ++ (if s.isParallel then [.removeStateDir s.name] else [])

/-- The except-ScenarioFailureError handler of base.py:229-251, entered
with `sc` being the failed scenario object: when the command destroy
argument is "always", dispatch cleanup against the failed scenario,
attempt the shared-default destroy, fall back to a direct destroy when
the default path did nothing, append the result records accordingly,
prune the ephemeral state (plus the parallel state directory), and
re-raise (`outcome = .failed` always).  When a dispatch inside the
handler itself raises, the handler aborts at that point exactly as the
Python exception propagation would. -/
def handle_failure (fails : FailOracle) (ca : CommandArgs) (dc : Option Scenario)
    (sc : Scenario) : RunResult :=
  if ca.destroy == some "always" then
    let cl := execute_subcommand fails sc "cleanup"
    if cl.ok then
      let dres := execute_subcommand_default fails dc "destroy"
      match dres.res with
      | .raised => ⟨dres.dc, cl.trace ++ dres.trace, [], .failed⟩
      | .ret (some drec) =>
        ⟨dres.dc, cl.trace ++ dres.trace ++ pruneEvs sc,
          [⟨cl.scenario.name, cl.scenario.results⟩, drec], .failed⟩
      | .ret none =>
        let ds := execute_subcommand fails cl.scenario "destroy"
        if ds.ok then
          ⟨dres.dc, cl.trace ++ dres.trace ++ ds.trace ++ pruneEvs sc,
            [⟨ds.scenario.name, ds.scenario.results⟩], .failed⟩
        else ⟨dres.dc, cl.trace ++ dres.trace ++ ds.trace, [], .failed⟩
    else ⟨dc, cl.trace, [], .failed⟩
  else ⟨dc, [], [], .failed⟩

/-- The per-scenario loop of base.py:213-256 (`_run_scenarios` body after
the initial create), returning the trace and result records this part of
the loop contributes.  Matches the source branch for branch: prerun
environment preparation, the reset short-circuit (base.py:222-225), the
success append (base.py:228), and the except-ScenarioFailureError
handler (`handle_failure`).  The empty-list case is the final
shared-default destroy of base.py:253-256. -/
def run_scenarios_loop (fails : FailOracle) (ca : CommandArgs) (dc : Option Scenario) :
    List Scenario → RunResult
  | [] =>
    let r := execute_subcommand_default fails dc "destroy"
    match r.res with
    | .raised => ⟨r.dc, r.trace, [], .failed⟩
    | .ret none => ⟨r.dc, r.trace, [], .completed⟩
    | .ret (some rec0) => ⟨r.dc, r.trace, [rec0], .completed⟩
  | s :: rest =>
    let pre := if s.prerun then [Ev.prerunEnv s.name] else []
    if ca.subcommand == "reset" then
      ⟨dc, pre ++ [.rmtreeEphemeral s.name], [], .reset⟩
    else
      let es := execute_scenario fails ca.destroy s
      if es.ok then
        let r := run_scenarios_loop fails ca dc rest
        ⟨r.dc, pre ++ es.trace ++ r.trace,
          ⟨es.scenario.name, es.scenario.results⟩ :: r.results, r.outcome⟩
      else
        let h := handle_failure fails ca dc es.scenario
        ⟨h.dc, pre ++ es.trace ++ h.trace, h.results, .failed⟩

/-- base.py:193-256 `_run_scenarios`: initial shared-default create
(base.py:209-211), then the per-scenario loop, then the final
shared-default destroy (handled by the empty-list case of the loop). -/
def run_scenarios (fails : FailOracle) (ca : CommandArgs) (scenarios : List Scenario)
    (dc : Option Scenario) : RunResult :=
  let c := execute_subcommand_default fails dc "create"
  match c.res with
  | .raised => ⟨c.dc, c.trace, [], .failed⟩
  | .ret none =>
    let r := run_scenarios_loop fails ca c.dc scenarios
    ⟨r.dc, c.trace ++ r.trace, r.results, r.outcome⟩
  | .ret (some rec0) =>
    let r := run_scenarios_loop fails ca c.dc scenarios
    ⟨r.dc, c.trace ++ r.trace, rec0 :: r.results, r.outcome⟩

/-- Outcome of the whole command-line invocation: normal return, or
process exit with the failure code (`util.sysexit(code=exc.code)`). -/
inductive CmdOutcome where
  | ok
  | failedExit
  deriving Repr, DecidableEq

structure CmdResult where
  trace : List Ev
  printedReport : Option (List ResultRecord)
  outcome : CmdOutcome
  deriving Repr, DecidableEq

/-- base.py:146-160, the run phase of `execute_cmdline_scenarios`: when
discovery failed, the run exits before any scenario executes; otherwise
`_run_scenarios` runs inside try/except/finally.  The finally block prints
`generate_report(scenarios.results)` when reporting was requested, both on
normal return and while unwinding the ScenarioFailureError into
`util.sysexit` (a Python finally runs before SystemExit propagates).
`printedReport = some rs` records that the report over `rs` was printed.
The rendering itself (`safe_dump`) is external to base.py. -/
def execute_cmdline_scenarios (fails : FailOracle) (ca : CommandArgs)
    (disc : Except String (List Scenario)) (dc : Option Scenario) : CmdResult :=
  match disc with
  | .error _ => ⟨[], none, .failedExit⟩
  | .ok scenarios =>
    let r := run_scenarios fails ca scenarios dc
    ⟨r.trace, if ca.report then some r.results else none,
      match r.outcome with
      | .failed => .failedExit
      | _ => .ok⟩

/-! ## Discovery (base.py:338-425) -/

/-- Outcome of the `git check-ignore` subprocess at base.py:347-356:
the git binary may be missing (FileNotFoundError), the call may fail
(CalledProcessError, since `check=True`), or it succeeds with some
standard output. -/
inductive GitResult where
  | unavailable
  | callFailed
  | success (stdout : String)
  deriving Repr, DecidableEq

/-- Split a character list at each newline character. -/
def splitOnNl : List Char → List (List Char)
  | [] => [[]]
  | c :: rest =>
    if c = '\n' then [] :: splitOnNl rest
    else
      match splitOnNl rest with
      | [] => [[c]]
      | g :: gs => (c :: g) :: gs

/-- Python `str.splitlines` restricted to newline separators: splits on
each newline and drops the trailing empty piece produced by a final
newline; the empty string yields no lines. -/
def splitlines (s : String) : List String :=
  if s.data = [] then []
  else
    let parts := (splitOnNl s.data).map String.mk
    if s.data.getLast? = some '\n' then parts.dropLast else parts

/-- base.py:338-364 `filter_ignored_scenarios`: when the subprocess raised
(suppressed by contextlib.suppress), `proc` is unbound, the NameError
handler keeps the input list unchanged; on success the paths listed on
standard output are filtered out. -/
def filter_ignored_scenarios (git : GitResult) (scenario_paths : List String) :
    List String :=
  match git with
  | .unavailable => scenario_paths
  | .callFailed => scenario_paths
  | .success out =>
    let ignored := splitlines out
    scenario_paths.filter (fun candidate => !ignored.contains candidate)

/-- The part of a Config that discovery validation reads: the path of the
molecule file it was built from and `config.scenario.name`. -/
structure DiscConfig where
  path : String
  name : SName
  deriving Repr, DecidableEq

/-- Whether some scenario name occurs twice in the list; matches the
`collections.Counter` check of base.py:418-421 (some count exceeds 1). -/
def has_duplicate : List SName → Bool
  | [] => false
  | n :: rest => rest.contains n || has_duplicate rest

/-- base.py:406-425 `_verify_configs`: with a nonempty config list, raise
ScenarioFailureError when a scenario name repeats; with an empty list,
raise the glob-failed ScenarioFailureError. -/
def verify_configs (configs : List DiscConfig) (glob_str : String) : Except String Unit :=
  if configs.isEmpty then .error (glob_str ++ " glob failed.  Exiting.")
  else if has_duplicate (configs.map DiscConfig.name) then
    .error "Duplicate scenario name found.  Exiting."
  else .ok ()

/-- base.py:367-403 `get_configs`: glob for molecule files (the glob
result `files` is the filesystem contribution), filter git-ignored paths,
build one Config per remaining path (`nameOf` abstracts the external
Config loading, giving the scenario name that a path loads to), and
verify the result.  Returns the configs or the ScenarioFailureError. -/
def get_configs (nameOf : String → SName) (git : GitResult) (files : List String)
    (glob_str : String) : Except String (List DiscConfig) :=
  let scenario_paths := filter_ignored_scenarios git files
  let configs := scenario_paths.map (fun p => (⟨p, nameOf p⟩ : DiscConfig))
  match verify_configs configs glob_str with
  | .error e => .error e
  | .ok _ => .ok configs

/-- base.py:61. -/
def MOLECULE_GLOB : String := "molecule/*/molecule.yml"

/-- base.py:139: the glob used when one scenario name is requested. -/
def globFor (name : String) : String := MOLECULE_GLOB.replace "*" name

/-- base.py:137-140: when specific scenario names are requested,
`get_configs` runs once per name, with the results concatenated; a
ScenarioFailureError from any call aborts the whole discovery.  `globFn`
gives the filesystem glob result for each glob string. -/
def discover_for_names (nameOf : String → SName) (globFn : String → List String)
    (git : GitResult) : List String → Except String (List DiscConfig)
  | [] => .ok []
  | n :: rest => do
    let cs ← get_configs nameOf git (globFn (globFor n)) (globFor n)
    let more ← discover_for_names nameOf globFn git rest
    return cs ++ more

/-! ## Prepare.execute (prepare.py:95-113) -/

structure MState where
  prepared : Bool
  deriving Repr, DecidableEq

structure Playbooks where
  prepare : Bool
  deriving Repr, DecidableEq

structure Provisioner where
  playbooks : Playbooks
  deriving Repr, DecidableEq

/-- The parts of the config that `Prepare.execute` reads:
`self._config.state.prepared`, `self._config.command_args.get("force")`,
`self._config.provisioner` and `provisioner.playbooks.prepare` (modelled
as a presence flag, its truthiness at prepare.py:107). -/
structure PrepareConfig where
  state : MState
  force : Bool
  provisioner : Option Provisioner
  deriving Repr, DecidableEq

/-- prepare.py:95-113 `Prepare.execute`: skip when already prepared
without force; with a provisioner, skip when no prepare playbook is
configured, otherwise call `provisioner.prepare()` and set the prepared
state flag.  The boolean of the pair records whether
`provisioner.prepare()` was invoked. -/
def prepare_execute (c : PrepareConfig) : PrepareConfig × Bool :=
  if c.state.prepared && !c.force then (c, false)
  else
    match c.provisioner with
    | none => (c, false)
    | some p =>
      if !p.playbooks.prepare then (c, false)
      else ({ c with state := { prepared := true } }, true)

/-- The actions of a sequence that the loop of base.py:320-325 actually
dispatches: those not skipped by the shared-data rule. -/
def keptActions (shared : Bool) (acts : List Action) : List Action :=
  acts.filter (fun a => !(shared && (a == "create" || a == "destroy")))

/-- Whether `execute_subcommand_default` would actually dispatch `sub`:
a default config exists, shared data is enabled, and `sub` is in the
default sequence (base.py:272-277). -/
def defaultOwns (dc : Option Scenario) (sub : Action) : Bool :=
  match dc with
  | none => false
  | some d => d.sharedData && d.sequence.contains sub

/-- Whether an event is a dispatch of the "create" action. -/
def isCreateDispatch : Ev → Bool
  | .dispatch _ a => a == "create"
  | _ => false

/-! ## Basic lemmas about the embedding -/

lemma execute_subcommand_trace (fails : FailOracle) (s : Scenario) (a : Action) :
    (execute_subcommand fails s a).trace = [.dispatch s.name a] := by
  unfold execute_subcommand
  split <;> rfl

lemma execute_subcommand_name (fails : FailOracle) (s : Scenario) (a : Action) :
    (execute_subcommand fails s a).scenario.name = s.name := by
  unfold execute_subcommand
  split <;> rfl

lemma execute_subcommand_isParallel (fails : FailOracle) (s : Scenario) (a : Action) :
    (execute_subcommand fails s a).scenario.isParallel = s.isParallel := by
  unfold execute_subcommand
  split <;> rfl

lemma execute_subcommand_of_not_fails (fails : FailOracle) (s : Scenario) (a : Action)
    (h : fails s.name a = false) :
    execute_subcommand fails s a =
      ⟨{ s with results := s.results ++ [a] }, [.dispatch s.name a], true⟩ := by
  unfold execute_subcommand
  simp [h]

lemma runActions_name (fails : FailOracle) (shared : Bool) (acts : List Action) :
    ∀ s : Scenario, (runActions fails shared s acts).scenario.name = s.name := by
  induction acts with
  | nil => intro s; rfl
  | cons a rest ih =>
    intro s
    simp only [runActions]
    split
    · exact ih s
    · split
      · exact (ih _).trans (execute_subcommand_name fails s a)
      · exact execute_subcommand_name fails s a

lemma runActions_trace_mem (fails : FailOracle) (shared : Bool) (acts : List Action) :
    ∀ (s : Scenario) (ev : Ev), ev ∈ (runActions fails shared s acts).trace →
      ∃ a, a ∈ acts ∧ (shared && (a == "create" || a == "destroy")) = false ∧
        ev = .dispatch s.name a := by
  induction acts with
  | nil => intro s ev h; simp [runActions] at h
  | cons a rest ih =>
    intro s ev h
    simp only [runActions] at h
    split at h
    · obtain ⟨b, hb, hc, he⟩ := ih s ev h
      exact ⟨b, List.mem_cons_of_mem _ hb, hc, he⟩
    · rename_i hskip
      rw [Bool.not_eq_true] at hskip
      split at h
      · rw [List.mem_append, execute_subcommand_trace] at h
        rcases h with h1 | h2
        · simp only [List.mem_singleton] at h1
          exact ⟨a, List.mem_cons_self _ _, hskip, h1⟩
        · obtain ⟨b, hb, hc, he⟩ := ih _ ev h2
          rw [execute_subcommand_name] at he
          exact ⟨b, List.mem_cons_of_mem _ hb, hc, he⟩
      · rw [execute_subcommand_trace, List.mem_singleton] at h
        exact ⟨a, List.mem_cons_self _ _, hskip, h⟩

lemma runActions_of_no_fail (fails : FailOracle) (shared : Bool) (acts : List Action) :
    ∀ s : Scenario, (∀ a ∈ acts, fails s.name a = false) →
      runActions fails shared s acts =
        ⟨{ s with results := s.results ++ keptActions shared acts },
          (keptActions shared acts).map (Ev.dispatch s.name), true⟩ := by
  induction acts with
  | nil => intro s _; simp [runActions, keptActions]
  | cons a rest ih =>
    intro s h
    simp only [runActions]
    split
    · rename_i hskip
      rw [ih s (fun b hb => h b (List.mem_cons_of_mem _ hb))]
      have hcond : (!(shared && (a == "create" || a == "destroy"))) = false := by
        rw [hskip]; rfl
      simp only [keptActions, List.filter_cons, hcond]
      simp
    · rename_i hskip
      rw [Bool.not_eq_true] at hskip
      rw [execute_subcommand_of_not_fails fails s a (h a (List.mem_cons_self _ _))]
      rw [ih { s with results := s.results ++ [a] }
        (fun b hb => h b (List.mem_cons_of_mem _ hb))]
      have hcond : (!(shared && (a == "create" || a == "destroy"))) = true := by
        rw [hskip]; rfl
      simp only [keptActions, List.filter_cons, hcond]
      simp [List.append_assoc]

lemma execute_scenario_name (fails : FailOracle) (dm : Option String) (s : Scenario) :
    (execute_scenario fails dm s).scenario.name = s.name := by
  simp only [execute_scenario]
  split
  · split
    · simp [runActions_name]
    · simp [runActions_name]
  · simp [runActions_name]

lemma execute_scenario_trace_mem (fails : FailOracle) (dm : Option String) (s : Scenario) :
    ∀ ev ∈ (execute_scenario fails dm s).trace,
      (∃ a, a ∈ s.sequence ∧ (s.sharedData && (a == "create" || a == "destroy")) = false ∧
        ev = .dispatch s.name a) ∨ ev = .prune s.name ∨ ev = .removeStateDir s.name := by
  simp only [execute_scenario]
  split
  · split
    · intro ev hev
      simp only [List.append_assoc, List.mem_append] at hev
      rcases hev with h1 | h2 | h4
      · exact Or.inl (runActions_trace_mem fails s.sharedData s.sequence s ev h1)
      · rw [List.mem_singleton] at h2
        exact Or.inr (Or.inl h2)
      · right; right
        rcases h5 : s.isParallel <;> rw [h5] at h4 <;> simp at h4
        exact h4
    · intro ev hev
      exact Or.inl (runActions_trace_mem fails s.sharedData s.sequence s ev hev)
  · intro ev hev
    exact Or.inl (runActions_trace_mem fails s.sharedData s.sequence s ev hev)

lemma execute_scenario_fail_eq (fails : FailOracle) (dm : Option String) (s : Scenario)
    (h : (runActions fails s.sharedData s s.sequence).ok = false) :
    execute_scenario fails dm s = runActions fails s.sharedData s s.sequence := by
  simp [execute_scenario, h]

lemma execute_scenario_ok_iff (fails : FailOracle) (dm : Option String) (s : Scenario) :
    (execute_scenario fails dm s).ok = (runActions fails s.sharedData s s.sequence).ok := by
  simp only [execute_scenario]
  split
  · rename_i hok
    split <;> simp [hok]
  · rfl

lemma esd_hit (fails : FailOracle) (d : Scenario) (sub : Action)
    (hshared : d.sharedData = true) (hseq : d.sequence.contains sub = true)
    (hok : fails d.name sub = false) :
    execute_subcommand_default fails (some d) sub =
      ⟨some { d with results := [] }, [.dispatch d.name sub],
        .ret (some ⟨d.name, d.results ++ [sub]⟩)⟩ := by
  simp only [execute_subcommand_default]
  rw [if_neg (show ¬d.sharedData = false by simp [hshared])]
  rw [if_pos hseq]
  rw [execute_subcommand_of_not_fails fails d sub hok]
  rfl

lemma esd_miss (fails : FailOracle) (dc : Option Scenario) (sub : Action)
    (h : defaultOwns dc sub = false) :
    execute_subcommand_default fails dc sub = ⟨dc, [], .ret none⟩ := by
  cases dc with
  | none => rfl
  | some d =>
    simp only [defaultOwns, Bool.and_eq_false_iff] at h
    simp only [execute_subcommand_default]
    rcases h with h | h
    · rw [if_pos h]
    · rcases hs : d.sharedData
      · rw [if_pos rfl]
      · rw [if_neg (by simp [hs]), if_neg (by simpa using h)]

lemma esd_trace_cases (fails : FailOracle) (dc : Option Scenario) (sub : Action) :
    (execute_subcommand_default fails dc sub).trace = [] ∨
    ∃ n, (execute_subcommand_default fails dc sub).trace = [Ev.dispatch n sub] := by
  cases dc with
  | none => left; rfl
  | some d =>
    simp only [execute_subcommand_default]
    split
    · left; rfl
    · split
      · split
        · right
          exact ⟨d.name, by simp [execute_subcommand_trace]⟩
        · right
          exact ⟨d.name, by simp [execute_subcommand_trace]⟩
      · left; rfl

lemma esd_no_raise (fails : FailOracle) (dc : Option Scenario) (sub : Action)
    (h : ∀ n, fails n sub = false) :
    (execute_subcommand_default fails dc sub).res ≠ .raised := by
  rcases hown : defaultOwns dc sub
  · rw [esd_miss fails dc sub hown]
    simp
  · cases dc with
    | none => simp [defaultOwns] at hown
    | some d =>
      simp only [defaultOwns, Bool.and_eq_true] at hown
      rw [esd_hit fails d sub hown.1 hown.2 (h d.name)]
      simp

lemma run_scenarios_loop_nil_trace (fails : FailOracle) (ca : CommandArgs)
    (dc : Option Scenario) :
    (run_scenarios_loop fails ca dc []).trace =
      (execute_subcommand_default fails dc "destroy").trace := by
  simp only [run_scenarios_loop]
  split <;> rfl

lemma mem_pruneEvs (s : Scenario) (ev : Ev) (h : ev ∈ pruneEvs s) :
    isCreateDispatch ev = false := by
  simp only [pruneEvs] at h
  rcases hp : s.isParallel <;> rw [hp] at h <;> simp at h
  · subst h; rfl
  · rcases h with h | h <;> subst h <;> rfl

lemma execute_scenario_no_create (fails : FailOracle) (dm : Option String) (s : Scenario)
    (hs : s.sharedData = true) :
    ∀ ev ∈ (execute_scenario fails dm s).trace, isCreateDispatch ev = false := by
  intro ev hev
  rcases execute_scenario_trace_mem fails dm s ev hev with ⟨a, _, hskip, he⟩ | he | he
  · rw [hs, Bool.true_and, Bool.or_eq_false_iff] at hskip
    rw [he]
    exact hskip.1
  · rw [he]; rfl
  · rw [he]; rfl

lemma handle_failure_no_create (fails : FailOracle) (ca : CommandArgs)
    (dc : Option Scenario) (sc : Scenario) :
    ∀ ev ∈ (handle_failure fails ca dc sc).trace, isCreateDispatch ev = false := by
  intro ev hev
  simp only [handle_failure] at hev
  split at hev
  · split at hev
    · split at hev
      · rename_i heq
        rw [List.mem_append, execute_subcommand_trace] at hev
        rcases hev with h | h
        · rw [List.mem_singleton] at h; subst h; rfl
        · rcases esd_trace_cases fails dc "destroy" with ht | ⟨n, ht⟩ <;> rw [ht] at h
          · simp at h
          · rw [List.mem_singleton] at h; subst h; rfl
      · rename_i drec heq
        simp only [List.append_assoc, List.mem_append, execute_subcommand_trace,
          List.mem_singleton] at hev
        rcases hev with h | h | h
        · subst h; rfl
        · rcases esd_trace_cases fails dc "destroy" with ht | ⟨n, ht⟩ <;> rw [ht] at h
          · simp at h
          · rw [List.mem_singleton] at h; subst h; rfl
        · exact mem_pruneEvs sc ev h
      · split at hev <;>
          simp only [List.append_assoc, List.mem_append, execute_subcommand_trace,
            List.mem_singleton] at hev
        · rcases hev with h | h | h | h
          · subst h; rfl
          · rcases esd_trace_cases fails dc "destroy" with ht | ⟨n, ht⟩ <;> rw [ht] at h
            · simp at h
            · rw [List.mem_singleton] at h; subst h; rfl
          · subst h; rfl
          · exact mem_pruneEvs sc ev h
        · rcases hev with h | h | h
          · subst h; rfl
          · rcases esd_trace_cases fails dc "destroy" with ht | ⟨n, ht⟩ <;> rw [ht] at h
            · simp at h
            · rw [List.mem_singleton] at h; subst h; rfl
          · subst h; rfl
    · rw [execute_subcommand_trace, List.mem_singleton] at hev
      subst hev; rfl
  · simp at hev

lemma run_scenarios_loop_no_create (fails : FailOracle) (ca : CommandArgs) :
    ∀ (l : List Scenario), (∀ s ∈ l, s.sharedData = true) →
      ∀ (dc : Option Scenario) (ev : Ev),
        ev ∈ (run_scenarios_loop fails ca dc l).trace → isCreateDispatch ev = false := by
  intro l
  induction l with
  | nil =>
    intro _ dc ev hev
    rw [run_scenarios_loop_nil_trace] at hev
    rcases esd_trace_cases fails dc "destroy" with h | ⟨n, h⟩ <;> rw [h] at hev
    · simp at hev
    · rw [List.mem_singleton] at hev; subst hev; rfl
  | cons s rest ih =>
    intro hall dc ev hev
    have hs : s.sharedData = true := hall s (List.mem_cons_self _ _)
    have hrest : ∀ x ∈ rest, x.sharedData = true :=
      fun x hx => hall x (List.mem_cons_of_mem _ hx)
    simp only [run_scenarios_loop] at hev
    have hpre : ∀ ev ∈ (if s.prerun then [Ev.prerunEnv s.name] else []),
        isCreateDispatch ev = false := by
      intro ev hev
      rcases hp : s.prerun <;> rw [hp] at hev <;> simp at hev
      subst hev; rfl
    split at hev
    · rw [List.mem_append] at hev
      rcases hev with h | h
      · exact hpre ev h
      · rw [List.mem_singleton] at h; subst h; rfl
    · split at hev <;>
        simp only [List.append_assoc, List.mem_append] at hev
      · rcases hev with h | h | h
        · exact hpre ev h
        · exact execute_scenario_no_create fails ca.destroy s hs ev h
        · exact ih hrest dc ev h
      · rcases hev with h | h | h
        · exact hpre ev h
        · exact execute_scenario_no_create fails ca.destroy s hs ev h
        · exact handle_failure_no_create fails ca dc _ ev h

/-! ## Claim theorems -/

/-- Claim C1: when the default scenario config exists with shared data
enabled, its sequence contains "create" and the create dispatch succeeds
(and, as in every run assembled by execute_cmdline_scenarios, all
scenario configs carry the same shared-data flag), then the whole run
dispatches "create" exactly once, against the default scenario, as the
very first event; the resulting record is the first entry of the
accumulated results; and the default scenario local buffer is reset. -/
theorem shared_create_dispatched_once (fails : FailOracle) (ca : CommandArgs)
    (scenarios : List Scenario) (d : Scenario)
    (hshared : d.sharedData = true)
    (hcreate : d.sequence.contains "create" = true)
    (hok : fails d.name "create" = false)
    (hall : ∀ s ∈ scenarios, s.sharedData = true) :
    (run_scenarios fails ca scenarios (some d)).trace.head? =
        some (Ev.dispatch d.name "create") ∧
    ((run_scenarios fails ca scenarios (some d)).trace.countP
        (fun ev => isCreateDispatch ev)) = 1 ∧
    (run_scenarios fails ca scenarios (some d)).results.head? =
        some ⟨d.name, d.results ++ ["create"]⟩ ∧
    (execute_subcommand_default fails (some d) "create").dc =
        some { d with results := [] } := by
  have hesd := esd_hit fails d "create" hshared hcreate hok
  have hloop := run_scenarios_loop_no_create fails ca scenarios hall
    (some { d with results := [] })
  simp only [run_scenarios, hesd]
  refine ⟨by simp, ?_, by simp, by simp [hesd]⟩
  rw [List.singleton_append, List.countP_cons]
  have h0 : ((run_scenarios_loop fails ca (some { d with results := [] })
      scenarios).trace.countP (fun ev => isCreateDispatch ev)) = 0 := by
    refine List.countP_eq_zero.mpr (fun ev hev => ?_)
    simp [hloop ev hev]
  rw [h0]
  rfl

/-- Witness for C1 at a concrete run. -/
theorem shared_create_dispatched_once_witness :
    ((run_scenarios (fun _ _ => false) ⟨"test", none, false⟩
        [⟨"web", ["converge"], true, false, false, []⟩]
        (some ⟨"default", ["create", "destroy"], true, false, false, []⟩)).trace.countP
      (fun ev => isCreateDispatch ev)) = 1 :=
  (shared_create_dispatched_once (fun _ _ => false) ⟨"test", none, false⟩
    [⟨"web", ["converge"], true, false, false, []⟩]
    ⟨"default", ["create", "destroy"], true, false, false, []⟩
    rfl rfl rfl (by simp)).2.1

/-- Claim C5: for a scenario none of whose actions fail,
execute_scenario dispatches exactly the actions of the sequence in
order, skipping exactly create and destroy when shared data is active,
and afterwards prunes the ephemeral state (plus the parallel state
directory) precisely when shared data is not active, "destroy" is in
the sequence and the destroy argument is not "never". -/
theorem execute_scenario_spec (fails : FailOracle) (dm : Option String) (s : Scenario)
    (h : ∀ a ∈ s.sequence, fails s.name a = false) :
    execute_scenario fails dm s =
      ⟨{ s with results := s.results ++ keptActions s.sharedData s.sequence },
        (keptActions s.sharedData s.sequence).map (Ev.dispatch s.name) ++
          (if !s.sharedData && s.sequence.contains "destroy" && !(dm == some "never") then
            [Ev.prune s.name] ++ (if s.isParallel then [Ev.removeStateDir s.name] else [])
          else []),
        true⟩ := by
  simp only [execute_scenario]
  rw [runActions_of_no_fail fails s.sharedData s.sequence s h]
  rcases hc : (!s.sharedData && s.sequence.contains "destroy" && !(dm == some "never"))
  · simp [hc]
  · simp [hc, List.append_assoc]

/-- Witness for C5: a shared-data scenario skips create and destroy and
does not prune. -/
theorem execute_scenario_spec_witness :
    execute_scenario (fun _ _ => false) (some "always")
        ⟨"web", ["create", "converge", "destroy"], true, false, false, []⟩ =
      ⟨⟨"web", ["create", "converge", "destroy"], true, false, false, ["converge"]⟩,
        [Ev.dispatch "web" "converge"], true⟩ := by
  have h := execute_scenario_spec (fun _ _ => false) (some "always")
    ⟨"web", ["create", "converge", "destroy"], true, false, false, []⟩
    (by intro a _; rfl)
  rw [h]
  rfl

/-- Claim C6: whenever reporting was requested, the run phase of
execute_cmdline_scenarios prints the report over the accumulated
ScenarioSet results, whatever the outcome of the run (success, reset, or
unwinding with a ScenarioFailureError into the failure exit). -/
theorem report_printed_regardless (fails : FailOracle) (ca : CommandArgs)
    (scenarios : List Scenario) (dc : Option Scenario)
    (hreport : ca.report = true) :
    (execute_cmdline_scenarios fails ca (.ok scenarios) dc).printedReport =
      some (run_scenarios fails ca scenarios dc).results := by
  simp [execute_cmdline_scenarios, hreport]

/-- Witness for C6 on a failing run: the report is still printed. -/
theorem report_printed_regardless_witness :
    (execute_cmdline_scenarios (fun _ _ => true) ⟨"test", none, true⟩
        (.ok [⟨"web", ["converge"], false, false, false, []⟩]) none).printedReport =
      some (run_scenarios (fun _ _ => true) ⟨"test", none, true⟩
        [⟨"web", ["converge"], false, false, false, []⟩] none).results ∧
    (execute_cmdline_scenarios (fun _ _ => true) ⟨"test", none, true⟩
        (.ok [⟨"web", ["converge"], false, false, false, []⟩]) none).outcome =
      CmdOutcome.failedExit :=
  ⟨report_printed_regardless (fun _ _ => true) ⟨"test", none, true⟩
    [⟨"web", ["converge"], false, false, false, []⟩] none rfl, rfl⟩

/-- Claim C7: with the "reset" subcommand (and the initial shared-default
create not raising), the run removes the first scenario ephemeral
directory and terminates at once: the outcome is the reset
short-circuit, the whole trace is the initial-create trace followed
only by the optional prerun event and the ephemeral-directory removal,
and the only dispatch events in the whole run are "create" dispatches
from the shared-default initial step - no sequence action of any
scenario runs and no remaining scenario is reached. -/
theorem reset_short_circuit (fails : FailOracle) (ca : CommandArgs)
    (s : Scenario) (rest : List Scenario) (dc : Option Scenario)
    (hreset : (ca.subcommand == "reset") = true)
    (hnoraise : (execute_subcommand_default fails dc "create").res ≠ .raised) :
    (run_scenarios fails ca (s :: rest) dc).outcome = .reset ∧
    (run_scenarios fails ca (s :: rest) dc).trace =
      (execute_subcommand_default fails dc "create").trace ++
        ((if s.prerun then [Ev.prerunEnv s.name] else []) ++ [Ev.rmtreeEphemeral s.name]) ∧
    (∀ n a, Ev.dispatch n a ∈ (run_scenarios fails ca (s :: rest) dc).trace →
      a = "create") := by
  have hloop : run_scenarios_loop fails ca (execute_subcommand_default fails dc "create").dc
      (s :: rest) =
      ⟨(execute_subcommand_default fails dc "create").dc,
        (if s.prerun then [Ev.prerunEnv s.name] else []) ++ [Ev.rmtreeEphemeral s.name],
        [], .reset⟩ := by
    simp only [run_scenarios_loop, hreset]
    rfl
  have htr : ∀ n a,
      Ev.dispatch n a ∈ (execute_subcommand_default fails dc "create").trace →
      a = "create" := by
    intro n a hmem
    rcases esd_trace_cases fails dc "create" with h | ⟨m, h⟩ <;> rw [h] at hmem
    · simp at hmem
    · rw [List.mem_singleton] at hmem
      cases hmem
      rfl
  simp only [run_scenarios]
  rcases hres : (execute_subcommand_default fails dc "create").res with _ | r
  · exact absurd hres hnoraise
  · rcases r with _ | rec0 <;>
      simp only [hloop] <;>
      refine ⟨by trivial, by trivial, ?_⟩ <;>
      intro n a hmem <;>
      rw [List.mem_append] at hmem <;>
      rcases hmem with h | h
    · exact htr n a h
    · rw [List.mem_append] at h
      rcases h with h | h
      · rcases hp : s.prerun <;> rw [hp] at h <;> simp at h
      · rw [List.mem_singleton] at h; cases h
    · exact htr n a h
    · rw [List.mem_append] at h
      rcases h with h | h
      · rcases hp : s.prerun <;> rw [hp] at h <;> simp at h
      · rw [List.mem_singleton] at h; cases h

/-- Witness for C7. -/
theorem reset_short_circuit_witness :
    (run_scenarios (fun _ _ => false) ⟨"reset", none, false⟩
        [⟨"web", ["converge"], false, false, false, []⟩] none).outcome =
      RunOutcome.reset :=
  (reset_short_circuit (fun _ _ => false) ⟨"reset", none, false⟩
    ⟨"web", ["converge"], false, false, false, []⟩ [] none rfl (by decide)).1

lemma get_configs_eq (nameOf : String → SName) (git : GitResult)
    (files : List String) (glob_str : String) :
    get_configs nameOf git files glob_str =
      if (filter_ignored_scenarios git files).isEmpty then
        .error (glob_str ++ " glob failed.  Exiting.")
      else if has_duplicate ((filter_ignored_scenarios git files).map nameOf) then
        .error "Duplicate scenario name found.  Exiting."
      else .ok ((filter_ignored_scenarios git files).map (fun p => ⟨p, nameOf p⟩)) := by
  have h1 : ((filter_ignored_scenarios git files).map
      (fun p => (⟨p, nameOf p⟩ : DiscConfig))).isEmpty =
      (filter_ignored_scenarios git files).isEmpty := by
    rcases filter_ignored_scenarios git files <;> rfl
  have h2 : (((filter_ignored_scenarios git files).map
      (fun p => (⟨p, nameOf p⟩ : DiscConfig))).map DiscConfig.name) =
      (filter_ignored_scenarios git files).map nameOf := by
    rw [List.map_map]; rfl
  simp only [get_configs, verify_configs, h1, h2]
  by_cases hc1 : (filter_ignored_scenarios git files).isEmpty = true
  · simp [hc1]
  · by_cases hc2 : has_duplicate ((filter_ignored_scenarios git files).map nameOf) = true
    · simp [hc1, hc2]
    · simp [hc1, hc2]

/-- Claim C2: get_configs raises a ScenarioFailureError exactly when the
glob matched zero config files after ignore filtering or when two of
the resulting configs share a scenario name; otherwise it returns one
config per remaining matched path. -/
theorem get_configs_error_iff (nameOf : String → SName) (git : GitResult)
    (files : List String) (glob_str : String) :
    ((∃ e, get_configs nameOf git files glob_str = .error e) ↔
      ((filter_ignored_scenarios git files).isEmpty = true ∨
        has_duplicate ((filter_ignored_scenarios git files).map nameOf) = true)) ∧
    (∀ cs, get_configs nameOf git files glob_str = .ok cs →
      cs = (filter_ignored_scenarios git files).map (fun p => ⟨p, nameOf p⟩)) := by
  rw [get_configs_eq]
  by_cases hc1 : (filter_ignored_scenarios git files).isEmpty = true
  · simp [hc1]
  · by_cases hc2 : has_duplicate ((filter_ignored_scenarios git files).map nameOf) = true
    · simp [hc1, hc2]
    · simp [hc1, hc2, eq_comm]

/-- Witness for C2: a successful discovery returns one config per path. -/
theorem get_configs_error_iff_witness :
    [(⟨"p", "n"⟩ : DiscConfig)] =
      (filter_ignored_scenarios GitResult.unavailable ["p"]).map
        (fun p => ⟨p, (fun _ => "n") p⟩) :=
  (get_configs_error_iff (fun _ => "n") GitResult.unavailable ["p"] "g").2
    [⟨"p", "n"⟩] rfl

/-- Claim C3 counterexample: requesting the scenario name "a" twice makes
discovery run get_configs once per requested name and concatenate; each
call succeeds, the concatenated configs contain a duplicate scenario
name, no ScenarioFailureError is raised, and a run over the resulting
duplicate-named scenarios executes both of them - contradicting the
claim that a duplicate anywhere in the complete discovered set fails
discovery before any execution. -/
theorem duplicate_across_names_cex :
    discover_for_names (fun _ => "a") (fun _ => ["molecule/a/molecule.yml"])
        GitResult.unavailable ["a", "a"] =
      Except.ok [⟨"molecule/a/molecule.yml", "a"⟩, ⟨"molecule/a/molecule.yml", "a"⟩] ∧
    has_duplicate
        ([(⟨"molecule/a/molecule.yml", "a"⟩ : DiscConfig),
          ⟨"molecule/a/molecule.yml", "a"⟩].map DiscConfig.name) = true ∧
    (run_scenarios (fun _ _ => false) ⟨"converge", none, false⟩
        [⟨"a", ["converge"], false, false, false, []⟩,
          ⟨"a", ["converge"], false, false, false, []⟩] none).trace =
      [Ev.dispatch "a" "converge", Ev.dispatch "a" "converge"] := by
  refine ⟨rfl, rfl, rfl⟩

/-- Claim C3 amended: duplicate scenario names are detected within each
single get_configs invocation - such an invocation fails with a
ScenarioFailureError, and a run whose discovery failed executes zero
scenarios (empty trace, failure exit); duplicates arising only across
the concatenated results of separate per-name invocations are not
detected (see the counterexample). -/
theorem duplicate_within_single_discovery (nameOf : String → SName) (git : GitResult)
    (files : List String) (glob_str : String)
    (hdup : has_duplicate ((filter_ignored_scenarios git files).map nameOf) = true) :
    get_configs nameOf git files glob_str =
      .error "Duplicate scenario name found.  Exiting." ∧
    (∀ (fails : FailOracle) (ca : CommandArgs) (dc : Option Scenario) (e : String),
      (execute_cmdline_scenarios fails ca (.error e) dc).trace = [] ∧
      (execute_cmdline_scenarios fails ca (.error e) dc).outcome = .failedExit) := by
  constructor
  · rw [get_configs_eq]
    have hne : (filter_ignored_scenarios git files).isEmpty = false := by
      rcases hl : filter_ignored_scenarios git files
      · rw [hl] at hdup
        simp [has_duplicate] at hdup
      · rfl
    simp [hne, hdup]
  · intro fails ca dc e
    exact ⟨rfl, rfl⟩

/-- Witness for the amended C3. -/
theorem duplicate_within_single_discovery_witness :
    get_configs (fun _ => "a") GitResult.unavailable ["p", "q"] "g" =
      .error "Duplicate scenario name found.  Exiting." :=
  (duplicate_within_single_discovery (fun _ => "a") GitResult.unavailable
    ["p", "q"] "g" rfl).1

/-- Claim C8: Prepare.execute calls the provisioner prepare operation and
then sets the prepared state flag exactly when the instances are not
already prepared (or force is set), a provisioner is configured and a
prepare playbook is configured; in every skip case it leaves the config,
including the prepared flag, unchanged. -/
theorem prepare_execute_spec (c : PrepareConfig) :
    ((prepare_execute c).2 = true ↔
      ((c.state.prepared = false ∨ c.force = true) ∧
        ∃ p, c.provisioner = some p ∧ p.playbooks.prepare = true)) ∧
    ((prepare_execute c).2 = true → (prepare_execute c).1.state.prepared = true) ∧
    ((prepare_execute c).2 = false → (prepare_execute c).1 = c) := by
  obtain ⟨⟨prep⟩, force, prov⟩ := c
  match prov with
  | none => cases prep <;> cases force <;> simp [prepare_execute]
  | some ⟨⟨pb⟩⟩ => cases prep <;> cases force <;> cases pb <;> simp [prepare_execute]

/-- Witness for C8: an unprepared config with a configured prepare
playbook runs prepare. -/
theorem prepare_execute_spec_witness :
    (prepare_execute ⟨⟨false⟩, false, some ⟨⟨true⟩⟩⟩).2 = true :=
  (prepare_execute_spec ⟨⟨false⟩, false, some ⟨⟨true⟩⟩⟩).1.mpr
    ⟨Or.inl rfl, ⟨⟨true⟩⟩, rfl, rfl⟩

/-- Claim C9: when the git ignore-check tool is unavailable or its
invocation fails, filter_ignored_scenarios returns the input unchanged;
when it succeeds, the result is exactly the input paths not listed on
the tool output, in input order (a sublist of the input). -/
theorem filter_ignored_spec (paths : List String) :
    filter_ignored_scenarios .unavailable paths = paths ∧
    filter_ignored_scenarios .callFailed paths = paths ∧
    (∀ out,
      filter_ignored_scenarios (.success out) paths =
        paths.filter (fun p => !(splitlines out).contains p) ∧
      (filter_ignored_scenarios (.success out) paths).Sublist paths ∧
      (∀ p, p ∈ filter_ignored_scenarios (.success out) paths ↔
        p ∈ paths ∧ (splitlines out).contains p = false)) := by
  refine ⟨rfl, rfl, fun out => ⟨rfl, List.filter_sublist _, fun p => ?_⟩⟩
  simp [filter_ignored_scenarios, List.mem_filter]

/-- Witness for C9: an ignored path is dropped, the rest kept in order. -/
theorem filter_ignored_spec_witness :
    filter_ignored_scenarios (.success "b\n") ["a", "b", "c"] = ["a", "c"] ∧
    filter_ignored_scenarios .unavailable ["a", "b", "c"] = ["a", "b", "c"] := by
  have h := filter_ignored_spec ["a", "b", "c"]
  exact ⟨by rw [(h.2.2 "b\n").1]; rfl, h.1⟩

lemma runActions_isParallel (fails : FailOracle) (shared : Bool) (acts : List Action) :
    ∀ s : Scenario, (runActions fails shared s acts).scenario.isParallel = s.isParallel := by
  induction acts with
  | nil => intro s; rfl
  | cons a rest ih =>
    intro s
    simp only [runActions]
    split
    · exact ih s
    · split
      · exact (ih _).trans (execute_subcommand_isParallel fails s a)
      · exact execute_subcommand_isParallel fails s a

lemma execute_scenario_isParallel (fails : FailOracle) (dm : Option String) (s : Scenario) :
    (execute_scenario fails dm s).scenario.isParallel = s.isParallel := by
  simp only [execute_scenario]
  split
  · split
    · simp [runActions_isParallel]
    · simp [runActions_isParallel]
  · simp [runActions_isParallel]

lemma handle_failure_spec (fails : FailOracle) (ca : CommandArgs) (dc : Option Scenario)
    (sc : Scenario)
    (halways : (ca.destroy == some "always") = true)
    (hclean : fails sc.name "cleanup" = false)
    (hdest : ∀ n, fails n "destroy" = false) :
    (handle_failure fails ca dc sc).outcome = .failed ∧
    Ev.dispatch sc.name "cleanup" ∈ (handle_failure fails ca dc sc).trace ∧
    Ev.prune sc.name ∈ (handle_failure fails ca dc sc).trace ∧
    (sc.isParallel = true →
      Ev.removeStateDir sc.name ∈ (handle_failure fails ca dc sc).trace) ∧
    (∃ rr ∈ (handle_failure fails ca dc sc).results, rr.name = sc.name) ∧
    (defaultOwns dc "destroy" = true →
      ∃ d, dc = some d ∧
        Ev.dispatch d.name "destroy" ∈ (handle_failure fails ca dc sc).trace) ∧
    (defaultOwns dc "destroy" = false →
      Ev.dispatch sc.name "destroy" ∈ (handle_failure fails ca dc sc).trace) := by
  have hcl := execute_subcommand_of_not_fails fails sc "cleanup" hclean
  have hds := execute_subcommand_of_not_fails fails
    { sc with results := sc.results ++ ["cleanup"] } "destroy" (hdest _)
  rcases dc with _ | d
  · have hmiss := esd_miss fails none "destroy" rfl
    refine ⟨?_, ?_, ?_, fun hp => ?_, ?_, fun h => ?_, fun _ => ?_⟩
    · simp [handle_failure, halways, hcl, hds, hmiss]
    · simp [handle_failure, halways, hcl, hds, hmiss]
    · simp [handle_failure, halways, hcl, hds, hmiss, pruneEvs]
    · rw [hp] at hds
      simp [handle_failure, halways, hcl, hds, hmiss, pruneEvs, hp]
    · simp [handle_failure, halways, hcl, hds, hmiss]
    · simp [defaultOwns] at h
    · simp [handle_failure, halways, hcl, hds, hmiss]
  · rcases howns : (d.sharedData && d.sequence.contains "destroy")
    · have hmiss := esd_miss fails (some d) "destroy" howns
      refine ⟨?_, ?_, ?_, fun hp => ?_, ?_, fun h => ?_, fun _ => ?_⟩
      · simp [handle_failure, halways, hcl, hds, hmiss]
      · simp [handle_failure, halways, hcl, hds, hmiss]
      · simp [handle_failure, halways, hcl, hds, hmiss, pruneEvs]
      · rw [hp] at hds
        simp [handle_failure, halways, hcl, hds, hmiss, pruneEvs, hp]
      · simp [handle_failure, halways, hcl, hds, hmiss]
      · exfalso
        have h2 : (d.sharedData && d.sequence.contains "destroy") = true := h
        rw [howns] at h2
        simp at h2
      · simp [handle_failure, halways, hcl, hds, hmiss]
    · have h1 : d.sharedData = true ∧ d.sequence.contains "destroy" = true := by
        simpa using howns
      have hhit := esd_hit fails d "destroy" h1.1 h1.2 (hdest d.name)
      refine ⟨?_, ?_, ?_, fun hp => ?_, ?_, fun _ => ?_, fun h => ?_⟩
      · simp [handle_failure, halways, hcl, hhit]
      · simp [handle_failure, halways, hcl, hhit]
      · simp [handle_failure, halways, hcl, hhit, pruneEvs]
      · simp [handle_failure, halways, hcl, hhit, pruneEvs, hp]
      · simp [handle_failure, halways, hcl, hhit]
      · refine ⟨d, rfl, ?_⟩
        simp [handle_failure, halways, hcl, hhit]
      · exfalso
        have h2 : (d.sharedData && d.sequence.contains "destroy") = false := h
        rw [howns] at h2
        simp at h2

/-- Claim C4: when a scenario execution raises a ScenarioFailureError
while the command destroy mode is "always" (and the compensation
dispatches themselves succeed), the handler dispatches cleanup against
the failed scenario, then a destroy - through the shared default when
the default owns destroy, directly against the failed scenario
otherwise; a result record for the failed scenario is appended, its
ephemeral state is pruned, the parallel state directory is also removed
when is_parallel is set, and the failure is re-raised (the loop ends
failed) rather than suppressed. -/
theorem failure_cleanup_destroy (fails : FailOracle) (ca : CommandArgs)
    (dc : Option Scenario) (s : Scenario) (rest : List Scenario)
    (hsub : (ca.subcommand == "reset") = false)
    (halways : (ca.destroy == some "always") = true)
    (hfail : (execute_scenario fails ca.destroy s).ok = false)
    (hclean : ∀ n, fails n "cleanup" = false)
    (hdest : ∀ n, fails n "destroy" = false) :
    (run_scenarios_loop fails ca dc (s :: rest)).outcome = .failed ∧
    Ev.dispatch s.name "cleanup" ∈ (run_scenarios_loop fails ca dc (s :: rest)).trace ∧
    Ev.prune s.name ∈ (run_scenarios_loop fails ca dc (s :: rest)).trace ∧
    (s.isParallel = true →
      Ev.removeStateDir s.name ∈ (run_scenarios_loop fails ca dc (s :: rest)).trace) ∧
    (∃ rr ∈ (run_scenarios_loop fails ca dc (s :: rest)).results, rr.name = s.name) ∧
    (defaultOwns dc "destroy" = true →
      ∃ d, dc = some d ∧
        Ev.dispatch d.name "destroy" ∈ (run_scenarios_loop fails ca dc (s :: rest)).trace) ∧
    (defaultOwns dc "destroy" = false →
      Ev.dispatch s.name "destroy" ∈ (run_scenarios_loop fails ca dc (s :: rest)).trace) := by
  have hname := execute_scenario_name fails ca.destroy s
  have hpar := execute_scenario_isParallel fails ca.destroy s
  have hh := handle_failure_spec fails ca dc (execute_scenario fails ca.destroy s).scenario
    halways (by rw [hname]; exact hclean s.name) hdest
  rw [hname, hpar] at hh
  have hloop : run_scenarios_loop fails ca dc (s :: rest) =
      ⟨(handle_failure fails ca dc (execute_scenario fails ca.destroy s).scenario).dc,
        (if s.prerun then [Ev.prerunEnv s.name] else []) ++
          (execute_scenario fails ca.destroy s).trace ++
          (handle_failure fails ca dc (execute_scenario fails ca.destroy s).scenario).trace,
        (handle_failure fails ca dc (execute_scenario fails ca.destroy s).scenario).results,
        .failed⟩ := by
    simp [run_scenarios_loop, hsub, hfail]
  rw [hloop]
  obtain ⟨_, hcl, hpr, hrm, hres, hdT, hdF⟩ := hh
  refine ⟨rfl, List.mem_append_right _ hcl, List.mem_append_right _ hpr,
    fun hp => List.mem_append_right _ (hrm hp), hres, fun h => ?_, fun h => ?_⟩
  · obtain ⟨d, hdc, hmem⟩ := hdT h
    exact ⟨d, hdc, List.mem_append_right _ hmem⟩
  · exact List.mem_append_right _ (hdF h)

/-- Witness for C4: a failing converge with destroy mode "always" and no
shared default triggers a cleanup dispatch against the failed scenario. -/
theorem failure_cleanup_destroy_witness :
    Ev.dispatch "web" "cleanup" ∈
      (run_scenarios_loop (fun _ a => a == "converge") ⟨"test", some "always", false⟩
        none [⟨"web", ["converge"], false, true, false, []⟩]).trace :=
  (failure_cleanup_destroy (fun _ a => a == "converge") ⟨"test", some "always", false⟩
    none ⟨"web", ["converge"], false, true, false, []⟩ [] rfl rfl rfl
    (fun _ => rfl) (fun _ => rfl)).2.1

/-- Claim C10: when a scenario execution raises a ScenarioFailureError
and the command destroy mode is not "always", no result record is
appended for that scenario, no compensation cleanup or destroy is
dispatched and nothing is pruned: the loop contributes exactly the
optional prerun event plus the failed execution trace - whose every
event is a dispatch of one of the scenario sequence actions - appends
no results, and propagates the failure. -/
theorem failure_without_always (fails : FailOracle) (ca : CommandArgs)
    (dc : Option Scenario) (s : Scenario) (rest : List Scenario)
    (hsub : (ca.subcommand == "reset") = false)
    (hnot : (ca.destroy == some "always") = false)
    (hfail : (execute_scenario fails ca.destroy s).ok = false) :
    (run_scenarios_loop fails ca dc (s :: rest)).outcome = .failed ∧
    (run_scenarios_loop fails ca dc (s :: rest)).results = [] ∧
    (run_scenarios_loop fails ca dc (s :: rest)).trace =
      (if s.prerun then [Ev.prerunEnv s.name] else []) ++
        (execute_scenario fails ca.destroy s).trace ∧
    (∀ ev ∈ (execute_scenario fails ca.destroy s).trace,
      ∃ a, a ∈ s.sequence ∧ ev = Ev.dispatch s.name a) := by
  have hra : (runActions fails s.sharedData s s.sequence).ok = false := by
    rw [← execute_scenario_ok_iff fails ca.destroy s]
    exact hfail
  have heq := execute_scenario_fail_eq fails ca.destroy s hra
  have hhf : handle_failure fails ca dc (execute_scenario fails ca.destroy s).scenario =
      ⟨dc, [], [], .failed⟩ := by
    simp [handle_failure, hnot]
  refine ⟨?_, ?_, ?_, ?_⟩
  · simp [run_scenarios_loop, hsub, hfail, hhf]
  · simp [run_scenarios_loop, hsub, hfail, hhf]
  · simp [run_scenarios_loop, hsub, hfail, hhf]
  · intro ev hev
    rw [heq] at hev
    obtain ⟨a, ha, _, he⟩ := runActions_trace_mem fails s.sharedData s.sequence s ev hev
    exact ⟨a, ha, he⟩

/-- Witness for C10: the failed scenario leaves the result accumulator
untouched. -/
theorem failure_without_always_witness :
    (run_scenarios_loop (fun _ a => a == "converge") ⟨"converge", none, false⟩
      none [⟨"web", ["converge"], false, false, false, []⟩]).results = [] :=
  (failure_without_always (fun _ a => a == "converge") ⟨"converge", none, false⟩
    none ⟨"web", ["converge"], false, false, false, []⟩ [] rfl rfl rfl).2.1

end Molecule
